import Mathlib

/-!
Verification development for the node-s3-backend HTTP service.

The service proxies file operations (upload, bucket-connectivity check,
folder download as zip, time-limited URL generation) to a cloud object
store.  The definitions below are a shallow embedding of the TypeScript
handlers: external effects (object-store calls, filesystem writes, the
HTTP response stream) are represented by an explicit environment record
describing each external call's outcome and by explicit traces of the
filesystem operations and response events the handler emits, in program
order.  Each handler keeps its source name.
-/

namespace NodeS3Backend

/-! ## JavaScript string primitives used by the handlers

`key.replace(folder, '')` with a plain-string pattern replaces the FIRST
occurrence of the pattern (or none when the pattern does not occur);
`.replace(/^\//, '')` strips at most one leading slash.  We model both on
the underlying character lists so that everything reduces structurally. -/

/-- JS `s.replace(pat, repl)` for a plain-string pattern: replace the first
occurrence of `pat` in `s`, or return `s` unchanged when `pat` does not
occur.  (An empty pattern matches at position 0, as in JS.) -/
def replaceFirstL (pat repl : List Char) : List Char → List Char
  | [] => if pat.isPrefixOf ([] : List Char) then repl else []
  | c :: cs =>
      if pat.isPrefixOf (c :: cs) then repl ++ (c :: cs).drop pat.length
      else c :: replaceFirstL pat repl cs

/-- JS `.replace(/^\//, '')`: remove one leading slash when present. -/
def stripLeadingSlash : List Char → List Char
  | '/' :: cs => cs
  | s => s

/-- JS `s.replace(pat, repl)` lifted to `String`. -/
def jsReplaceFirst (s pat repl : String) : String :=
  ⟨replaceFirstL pat.data repl.data s.data⟩

/-- `key.replace(folder, '').replace(/^\//, '')` — the local relative path
the download stage derives for a listed key (source: fileName computation
in both download handlers). -/
def relPathOfKey (folder key : String) : String :=
  ⟨stripLeadingSlash (replaceFirstL folder.data [] key.data)⟩

/-- Modelled from the spec's words for comparison: "computes the path
relative to the requested prefix (strip prefix, strip leading separator)".
Drops the folder's length from the front of the key, then one leading
slash. -/
def specRelPath (folder key : String) : String :=
  ⟨stripLeadingSlash (key.data.drop folder.data.length)⟩

/-- JS `key.endsWith('/')` — whether a listed key is a folder placeholder. -/
def isPlaceholderKey (k : String) : Bool :=
  match k.data.getLast? with
  | some c => c == '/'
  | none => false

/-! ## Upload handler (uploadFileOnAwsS3, in both controller files)

The handler builds a PutObjectCommand and calls `s3Client.send(...)`
WITHOUT `await`: the returned promise's rejection can never reach the
surrounding try/catch, so the `putOutcome` parameter below — the eventual
outcome of the put — cannot influence the response.  The inner catch
branch (`res.status(500).send('Error uploading file.')`) is dead code for
an asynchronous put failure; we keep the outcome as an explicit parameter
so theorems can quantify over it. -/

structure UploadedFile where
  originalname : String
  mimetype : String
  deriving DecidableEq, Repr

structure UploadReq where
  file : Option UploadedFile
  folderField : Option String
  deriving DecidableEq, Repr

inductive UploadResp where
  | sent (code : Nat) (body : String)
  | sentJson (code : Nat) (message fileUrl : String)
  deriving DecidableEq, Repr

/-- `req.body.folder || 'default-folder'` (falsy check: absent or empty). -/
def uploadFolderOf (r : UploadReq) : String :=
  match r.folderField with
  | none => "default-folder"
  | some s => if s = "" then "default-folder" else s

set_option linter.unusedVariables false in
/-- Shallow embedding of `uploadFileOnAwsS3`.  `putOutcome` is the eventual
outcome of the un-awaited `s3Client.send(new PutObjectCommand(...))`. -/
def uploadFileOnAwsS3 (bucket region : String) (putOutcome : Except Unit Unit)
    (r : UploadReq) : UploadResp :=
  match r.file with
  | none => .sent 400 "No file uploaded."
  | some f =>
      .sentJson 200 "File uploaded successfully!"
        ("https://" ++ bucket ++ ".s3." ++ region ++ ".amazonaws.com/" ++
          uploadFolderOf r ++ "/" ++ f.originalname)

/-! ## Folder archive pipeline
(`getDownloadCompleteFolderSvc`, sequential; `getDownloadNestedCompleteFolderSvc`,
concurrent with client-abort handling)

Both handlers: validate the `folder` query parameter; create a per-request
staging directory under a uuid name; list the bucket under the folder as
key prefix; 404 on an empty listing; download every non-placeholder key
into the staging directory (the concurrent variant fans the downloads
out and awaits them as a batch — we record the staged set and the
filesystem trace in listing order, which is all the batch's settlement
guarantees); zip the staging directory; stream the zip; clean up.

The environment fixes the outcome of each external interaction:
`listing` is the `ListObjectsV2Command` result (`Except.error` = the call
throws, reaching the outer catch; `Option` mirrors `Contents` possibly
being undefined); `fetchOk k` is whether `GetObjectCommand` + stream
pipeline for key `k` succeeds (a failure is caught per entry and only
logged); `zipOk` is whether the archive output stream closes normally or
fires its error event; `sendOk` is whether `res.sendFile` delivers the
file; `headersSentAtErr` is, when `sendOk = false`, whether response
headers had already gone out when the send failed; `aborted` is whether
the client disconnected mid-stream (the abort observer the concurrent
variant registers). -/

inductive RespEvent where
  | status (code : Nat)
  | streamStart
  deriving DecidableEq, Repr

inductive FsOp where
  | mkRootDir
  | mkStage
  | rmStage
  | ensureParentDir (rel : String)
  | writeFile (key rel : String)
  | readStageDir
  | mkZip
  | rmZip
  deriving DecidableEq, Repr

structure Outcome where
  responses : List RespEvent
  fsOps : List FsOp
  staged : List (String × String)
  archiveEntries : Option (List String)
  deriving DecidableEq, Repr

structure Env where
  listing : Except Unit (Option (List String))
  fetchOk : String → Bool
  zipOk : Bool
  sendOk : Bool
  headersSentAtErr : Bool
  aborted : Bool

/-- Filesystem operations common to both handlers before the listing call:
`fse.ensureDir(rootPath)`, `fse.remove(folderPath)`, `fse.ensureDir(folderPath)`. -/
def stagePre : List FsOp := [.mkRootDir, .rmStage, .mkStage]

/-- The (key, local relative path) pairs actually written into the staging
directory: placeholder keys are skipped before any path computation, and a
key whose fetch fails is caught, logged and leaves no file.  Identical
logic in both download variants. -/
def downloadStaged (env : Env) (folder : String) (keys : List String) :
    List (String × String) :=
  keys.filterMap fun k =>
    if isPlaceholderKey k then none
    else if env.fetchOk k then some (k, relPathOfKey folder k) else none

/-- The filesystem trace of the download stage: for each non-placeholder
key, `fse.ensureDir(path.dirname(localFilePath))` runs unconditionally,
then the write happens only when the fetch succeeds. -/
def downloadOps (env : Env) (folder : String) (keys : List String) : List FsOp :=
  keys.flatMap fun k =>
    if isPlaceholderKey k then []
    else
      FsOp.ensureParentDir (relPathOfKey folder k) ::
        (if env.fetchOk k then [FsOp.writeFile k (relPathOfKey folder k)] else [])

/-- Response events the concurrent handler emits once the zip stream has
closed: the abort observer or a successful send leave just the stream; a
send failure logs the error and attempts a 500 only when response headers
had not yet been sent (the `!res.headersSent` guard); the sendFile
callback then cleans up in every case. -/
def nestedSendResponses (env : Env) : List RespEvent :=
  if env.aborted then [.streamStart]
  else if env.sendOk then [.streamStart]
  else if env.headersSentAtErr then [.streamStart]
  else [.status 500]

/-- Response events the sequential handler emits once the zip stream has
closed: its sendFile error callback attempts `res.status(500).send(...)`
with NO `headersSent` guard, so a failure after headers went out yields a
second response attempt. -/
def seqSendResponses (env : Env) : List RespEvent :=
  if env.sendOk then [.streamStart]
  else if env.headersSentAtErr then [.streamStart, .status 500]
  else [.status 500]

/-- Shallow embedding of the concurrent download handler
`getDownloadNestedCompleteFolderSvc`.  Exit paths, in source order:
missing/empty folder → 400 before any filesystem operation; listing call
throws → outer catch responds 500 (no cleanup); `Contents` undefined or
empty → remove staging dir, 404; otherwise download, zip.  On the zip
path: client abort → the abort observer removes staging dir and zip and
the sendFile callback returns early; successful send → callback cleanup;
send failure → error logged, 500 attempted only when headers were not yet
sent (`!res.headersSent` guard), then callback cleanup; zip stream error →
500, no cleanup. -/
def getDownloadNestedCompleteFolderSvc (env : Env) (folderQ : Option String) :
    Outcome :=
  match folderQ with
  | none => ⟨[.status 400], [], [], none⟩
  | some folder =>
    if folder = "" then ⟨[.status 400], [], [], none⟩
    else
      match env.listing with
      | .error _ => ⟨[.status 500], stagePre, [], none⟩
      | .ok none => ⟨[.status 404], stagePre ++ [.rmStage], [], none⟩
      | .ok (some keys) =>
        if keys = [] then ⟨[.status 404], stagePre ++ [.rmStage], [], none⟩
        else
          let staged := downloadStaged env folder keys
          let ops := stagePre ++ downloadOps env folder keys
          if env.zipOk then
            ⟨nestedSendResponses env, ops ++ [.mkZip, .rmStage, .rmZip], staged,
              some (staged.map Prod.snd)⟩
          else
            ⟨[.status 500], ops ++ [.mkZip], staged, none⟩

/-- Shallow embedding of the sequential download handler
`getDownloadCompleteFolderSvc`.  Same pipeline without abort handling;
after the zip stream is created the handler also reads the staging
directory (`fse.readdir`) for progress accounting.  Its sendFile error
callback attempts `res.status(500).send(...)` WITHOUT a `headersSent`
guard, so a send failure after headers went out produces a second
response attempt; cleanup still runs in the callback. -/
def getDownloadCompleteFolderSvc (env : Env) (folderQ : Option String) :
    Outcome :=
  match folderQ with
  | none => ⟨[.status 400], [], [], none⟩
  | some folder =>
    if folder = "" then ⟨[.status 400], [], [], none⟩
    else
      match env.listing with
      | .error _ => ⟨[.status 500], stagePre, [], none⟩
      | .ok none => ⟨[.status 404], stagePre ++ [.rmStage], [], none⟩
      | .ok (some keys) =>
        if keys = [] then ⟨[.status 404], stagePre ++ [.rmStage], [], none⟩
        else
          let staged := downloadStaged env folder keys
          let ops := stagePre ++ downloadOps env folder keys
          if env.zipOk then
            ⟨seqSendResponses env, ops ++ [.mkZip, .readStageDir, .rmStage, .rmZip],
              staged, some (staged.map Prod.snd)⟩
          else
            ⟨[.status 500], ops ++ [.mkZip, .readStageDir], staged, none⟩

/-- Whether the staging directory exists after a trace of filesystem
operations (idempotent remove-if-exists semantics). -/
def stageExistsAfter (ops : List FsOp) : Bool :=
  ops.foldl
    (fun b op =>
      match op with
      | .mkStage => true
      | .rmStage => false
      | _ => b)
    false

/-- Whether the archive file exists after a trace of filesystem operations
(it is created by `fs.createWriteStream(zipFilePath)`). -/
def zipExistsAfter (ops : List FsOp) : Bool :=
  ops.foldl
    (fun b op =>
      match op with
      | .mkZip => true
      | .rmZip => false
      | _ => b)
    false

/-! ## Time-limited URL endpoints
(`getPresignedFolderUrls` on route `generateDownloadUrls`, and
`getPresignedFolderUrlsUsignJwtToken` on route `generateJwtTokenDownloadUrl`)

Response bodies are JSON values; we model just the fragment of JSON the
handlers build.  The environment fixes the listing outcome, the string
`getSignedUrl` returns for a key and an expiry, the content type the
`HeadObjectCommand` reports for a key, and the verdict of `jwt.verify` on
a token.  `listingCalled` in the outcome records whether the handler sent
a `ListObjectsV2Command` to the object store. -/

inductive Json where
  | str (s : String)
  | arr (elems : List Json)
  | obj (fields : List (String × Json))
  deriving Repr

structure LinkEnv where
  listing : Except Unit (Option (List String))
  sign : String → Nat → String
  contentTypeOf : String → String
  verifyOk : String → Bool

structure LinkOutcome where
  status : Nat
  body : Json
  listingCalled : Bool

/-- One element of the `signedUrls` array in `getPresignedFolderUrls`:
`{ filename: file.Key.replace(folder + '/', ''), signedUrl, contentType }`
with `getSignedUrl(..., { expiresIn: 60 })`. -/
def presignedEntryFull (env : LinkEnv) (folder key : String) : Json :=
  .obj [("filename", .str (jsReplaceFirst key (folder ++ "/") "")),
        ("signedUrl", .str (env.sign key 60)),
        ("contentType", .str (env.contentTypeOf key))]

/-- One element of the `signedUrls` array in the JWT variant (no
contentType field there). -/
def presignedEntryJwt (env : LinkEnv) (folder key : String) : Json :=
  .obj [("filename", .str (jsReplaceFirst key (folder ++ "/") "")),
        ("signedUrl", .str (env.sign key 60))]

set_option linter.unusedVariables false in
/-- Shallow embedding of `getPresignedFolderUrls` (route
`generateDownloadUrls`).  The handler reads only `req.query.folder`; the
`authHeader` parameter is the request's Authorization header, which this
handler never inspects (no authentication of any kind).  Body on success:
`{ files: [...] }` where the array holds one entry per listed key not
ending in '/'. -/
def getPresignedFolderUrls (env : LinkEnv) (authHeader : Option String)
    (folderQ : Option String) : LinkOutcome :=
  match folderQ with
  | none => ⟨400, .obj [("error", .str "Folder is required")], false⟩
  | some folder =>
    if folder = "" then ⟨400, .obj [("error", .str "Folder is required")], false⟩
    else
      match env.listing with
      | .error _ =>
          ⟨500, .obj [("error", .str "Failed to generate download links")], true⟩
      | .ok contents =>
          let files := (contents.getD []).filter (fun k => !isPlaceholderKey k)
          ⟨200, .obj [("files", .arr (files.map (presignedEntryFull env folder)))],
            true⟩

/-- JS `authHeader.split(' ')` on the character list (structural, so that
proofs can evaluate it). -/
def splitOnSpace : List Char → List (List Char)
  | [] => [[]]
  | c :: cs =>
      let r := splitOnSpace cs
      if c = ' ' then [] :: r
      else
        match r with
        | [] => [[c]]
        | g :: gs => (c :: g) :: gs

/-- JS `authHeader.split(' ')[1]` — the bearer token extracted from the
Authorization header (empty string stands for JS `undefined`, unreachable
once the header starts with `Bearer `). -/
def bearerTokenOf (h : String) : String :=
  ⟨(splitOnSpace h.data).getD 1 []⟩

/-- Shallow embedding of `getPresignedFolderUrlsUsignJwtToken` (route
`generateJwtTokenDownloadUrl`).  Order as in the source: Authorization
header present and starting with `Bearer ` (else 401), `jwt.verify` on the
token (else 401), then the folder check and the same listing/signing
pipeline (without contentType in the entries). -/
def getPresignedFolderUrlsUsignJwtToken (env : LinkEnv) (authHeader : Option String)
    (folderQ : Option String) : LinkOutcome :=
  match authHeader with
  | none =>
      ⟨401, .obj [("error", .str "Missing or invalid Authorization header")], false⟩
  | some h =>
    if !("Bearer ".data.isPrefixOf h.data) then
      ⟨401, .obj [("error", .str "Missing or invalid Authorization header")], false⟩
    else if !(env.verifyOk (bearerTokenOf h)) then
      ⟨401, .obj [("error", .str "Invalid or expired token")], false⟩
    else
      match folderQ with
      | none => ⟨400, .obj [("error", .str "Folder is required")], false⟩
      | some folder =>
        if folder = "" then
          ⟨400, .obj [("error", .str "Folder is required")], false⟩
        else
          match env.listing with
          | .error _ =>
              ⟨500, .obj [("error", .str "Failed to generate download links")], true⟩
          | .ok contents =>
              let files := (contents.getD []).filter (fun k => !isPlaceholderKey k)
              ⟨200,
                .obj [("files", .arr (files.map (presignedEntryJwt env folder)))],
                true⟩

/-- Modelled from the spec's words for comparison (C9): "filename is the
key with the prefix plus '/' removed" — remove `folder ++ "/"` from the
front of the key when it starts with it. -/
def specFilename (folder key : String) : String :=
  if (folder ++ "/").data.isPrefixOf key.data then
    ⟨key.data.drop (folder ++ "/").data.length⟩
  else key

/-! ## Concrete environments used to evaluate the handlers -/

/-- An environment in which the `ListObjectsV2Command` call throws. -/
def envC2err : Env :=
  { listing := .error (), fetchOk := fun _ => true, zipOk := true,
    sendOk := true, headersSentAtErr := false, aborted := false }

/-- A fully successful environment for the archive pipeline. -/
def envC2ok : Env :=
  { listing := .ok (some ["f/a.txt"]), fetchOk := fun _ => true, zipOk := true,
    sendOk := true, headersSentAtErr := false, aborted := false }

/-- A benign environment (used with an empty folder parameter). -/
def envC4 : Env :=
  { listing := .ok (some ["f/a.txt"]), fetchOk := fun _ => true, zipOk := true,
    sendOk := true, headersSentAtErr := false, aborted := false }

/-- A listing with a nested key under the requested folder. -/
def envC5 : Env :=
  { listing := .ok (some ["folderX/a.txt", "folderX/nested/b.txt"]),
    fetchOk := fun _ => true, zipOk := true, sendOk := true,
    headersSentAtErr := false, aborted := false }

/-- A listing containing a placeholder key. -/
def envC6 : Env :=
  { listing := .ok (some ["f/a.txt", "f/d/"]), fetchOk := fun _ => true,
    zipOk := true, sendOk := true, headersSentAtErr := false, aborted := false }

/-- An environment in which exactly the fetch of key `f/bad` fails. -/
def envC7 : Env :=
  { listing := .ok (some ["f/a.txt", "f/bad", "f/d/"]),
    fetchOk := fun k => !(k == "f/bad"), zipOk := true, sendOk := true,
    headersSentAtErr := false, aborted := false }

/-- An environment in which `res.sendFile` fails after response headers
have already been sent. -/
def envC8cx : Env :=
  { listing := .ok (some ["f/a.txt"]), fetchOk := fun _ => true, zipOk := true,
    sendOk := false, headersSentAtErr := true, aborted := false }

/-- A fully successful environment for the send stage. -/
def envC8ok : Env :=
  { listing := .ok (some ["f/a.txt"]), fetchOk := fun _ => true, zipOk := true,
    sendOk := true, headersSentAtErr := false, aborted := false }

/-- A listing that returns only placeholder keys. -/
def envC10 : Env :=
  { listing := .ok (some ["f/", "f/sub/"]), fetchOk := fun _ => true,
    zipOk := true, sendOk := true, headersSentAtErr := false, aborted := false }

/-- A link-generation environment whose token verification always fails. -/
def linkEnvC3 : LinkEnv :=
  { listing := .ok (some ["f/a.txt"]), sign := fun k _ => k,
    contentTypeOf := fun _ => "text/plain", verifyOk := fun _ => false }

/-- A link-generation environment with a successful nested listing. -/
def linkEnvC9 : LinkEnv :=
  { listing := .ok (some ["f/a.txt", "f/nested/b.txt", "f/"]),
    sign := fun k n => k ++ "?expires=" ++ toString n,
    contentTypeOf := fun _ => "text/plain", verifyOk := fun _ => true }

/-! ## Helper lemmas -/

/-- When the pattern occurs at the front of the string, JS replace-first
removes exactly the front occurrence. -/
theorem replaceFirstL_of_isPrefixOf (pat repl s : List Char)
    (h : pat.isPrefixOf s = true) :
    replaceFirstL pat repl s = repl ++ s.drop pat.length := by
  cases s with
  | nil => simp [replaceFirstL, h]
  | cons c cs => simp [replaceFirstL, h]

/-- For a key the listing returned under the requested folder (so the
folder is a true front segment of the key), the handler's relative-path
computation agrees with the spec's strip-the-front description. -/
theorem relPathOfKey_eq_specRelPath (folder key : String)
    (h : folder.data.isPrefixOf key.data = true) :
    relPathOfKey folder key = specRelPath folder key := by
  unfold relPathOfKey specRelPath
  rw [replaceFirstL_of_isPrefixOf _ _ _ h]
  simp

/-- For a key that lies under `folder ++ "/"`, the handler's
JS-replace-first filename computation agrees with the spec-side
strip-the-front description. -/
theorem jsReplaceFirst_eq_specFilename (folder key : String)
    (h : ((folder ++ "/").data).isPrefixOf key.data = true) :
    jsReplaceFirst key (folder ++ "/") "" = specFilename folder key := by
  unfold jsReplaceFirst specFilename
  rw [replaceFirstL_of_isPrefixOf _ _ _ h, if_pos h]
  simp

/-- Membership characterization of the staged-files set. -/
theorem mem_downloadStaged (env : Env) (folder k r : String)
    (keys : List String) :
    (k, r) ∈ downloadStaged env folder keys ↔
      k ∈ keys ∧ isPlaceholderKey k = false ∧ env.fetchOk k = true ∧
        r = relPathOfKey folder k := by
  unfold downloadStaged
  rw [List.mem_filterMap]
  constructor
  · rintro ⟨a, ha, hfa⟩
    by_cases h1 : isPlaceholderKey a = true
    · simp [h1] at hfa
    · by_cases h2 : env.fetchOk a = true
      · simp [h1, h2] at hfa
        obtain ⟨hak, har⟩ := hfa
        subst hak
        exact ⟨ha, by simpa using h1, h2, har.symm⟩
      · simp [h1, h2] at hfa
  · rintro ⟨hk, h1, h2, hr⟩
    exact ⟨k, hk, by simp [h1, h2, hr]⟩

/-- Fold helper: a trace ending in the concurrent handler's cleanup leaves
no staging directory. -/
theorem stageExistsAfter_cleanupNested (l m : List FsOp) :
    stageExistsAfter (l ++ (m ++ [.mkZip, .rmStage, .rmZip])) = false := by
  unfold stageExistsAfter
  rw [← List.append_assoc, List.foldl_append]
  rfl

/-- Fold helper: a trace ending in the concurrent handler's cleanup leaves
no archive file. -/
theorem zipExistsAfter_cleanupNested (l m : List FsOp) :
    zipExistsAfter (l ++ (m ++ [.mkZip, .rmStage, .rmZip])) = false := by
  unfold zipExistsAfter
  rw [← List.append_assoc, List.foldl_append]
  rfl

/-- Fold helper: a trace ending in the sequential handler's cleanup leaves
no staging directory. -/
theorem stageExistsAfter_cleanupSeq (l m : List FsOp) :
    stageExistsAfter (l ++ (m ++ [.mkZip, .readStageDir, .rmStage, .rmZip])) =
      false := by
  unfold stageExistsAfter
  rw [← List.append_assoc, List.foldl_append]
  rfl

/-- Fold helper: a trace ending in the sequential handler's cleanup leaves
no archive file. -/
theorem zipExistsAfter_cleanupSeq (l m : List FsOp) :
    zipExistsAfter (l ++ (m ++ [.mkZip, .readStageDir, .rmStage, .rmZip])) =
      false := by
  unfold zipExistsAfter
  rw [← List.append_assoc, List.foldl_append]
  rfl

/-- The concurrent handler never reports 404 from its post-zip stage. -/
theorem status404_notMem_nestedSendResponses (env : Env) :
    RespEvent.status 404 ∉ nestedSendResponses env := by
  unfold nestedSendResponses
  cases env.aborted <;> cases env.sendOk <;> cases env.headersSentAtErr <;> simp

/-- The sequential handler never reports 404 from its post-zip stage. -/
theorem status404_notMem_seqSendResponses (env : Env) :
    RespEvent.status 404 ∉ seqSendResponses env := by
  unfold seqSendResponses
  cases env.sendOk <;> cases env.headersSentAtErr <;> simp

/-- Full case shape of the concurrent handler's outcome. -/
theorem nested_shape (env : Env) (folderQ : Option String) :
    getDownloadNestedCompleteFolderSvc env folderQ =
        ⟨[.status 400], [], [], none⟩ ∨
    getDownloadNestedCompleteFolderSvc env folderQ =
        ⟨[.status 500], stagePre, [], none⟩ ∨
    getDownloadNestedCompleteFolderSvc env folderQ =
        ⟨[.status 404], stagePre ++ [.rmStage], [], none⟩ ∨
    ∃ folder keys, folderQ = some folder ∧ ¬(folder = "") ∧
      env.listing = .ok (some keys) ∧ ¬(keys = []) ∧
      ((env.zipOk = true ∧
          getDownloadNestedCompleteFolderSvc env folderQ =
            ⟨nestedSendResponses env,
              stagePre ++ downloadOps env folder keys ++ [.mkZip, .rmStage, .rmZip],
              downloadStaged env folder keys,
              some ((downloadStaged env folder keys).map Prod.snd)⟩) ∨
        (env.zipOk = false ∧
          getDownloadNestedCompleteFolderSvc env folderQ =
            ⟨[.status 500], stagePre ++ downloadOps env folder keys ++ [.mkZip],
              downloadStaged env folder keys, none⟩)) := by
  unfold getDownloadNestedCompleteFolderSvc
  cases folderQ with
  | none => exact Or.inl rfl
  | some folder =>
    by_cases hf : folder = ""
    · exact Or.inl (by simp [hf])
    · rcases hL : env.listing with e | c
      · exact Or.inr (Or.inl (by simp [hf, hL]))
      · rcases c with _ | keys
        · exact Or.inr (Or.inr (Or.inl (by simp [hf, hL])))
        · by_cases hk : keys = []
          · exact Or.inr (Or.inr (Or.inl (by simp [hf, hL, hk])))
          · refine Or.inr (Or.inr (Or.inr ⟨folder, keys, rfl, hf, rfl, hk, ?_⟩))
            cases hz : env.zipOk
            · exact Or.inr ⟨rfl, by simp [hf, hL, hk, hz]⟩
            · exact Or.inl ⟨rfl, by simp [hf, hL, hk, hz]⟩

/-- Full case shape of the sequential handler's outcome. -/
theorem seq_shape (env : Env) (folderQ : Option String) :
    getDownloadCompleteFolderSvc env folderQ =
        ⟨[.status 400], [], [], none⟩ ∨
    getDownloadCompleteFolderSvc env folderQ =
        ⟨[.status 500], stagePre, [], none⟩ ∨
    getDownloadCompleteFolderSvc env folderQ =
        ⟨[.status 404], stagePre ++ [.rmStage], [], none⟩ ∨
    ∃ folder keys, folderQ = some folder ∧ ¬(folder = "") ∧
      env.listing = .ok (some keys) ∧ ¬(keys = []) ∧
      ((env.zipOk = true ∧
          getDownloadCompleteFolderSvc env folderQ =
            ⟨seqSendResponses env,
              stagePre ++ downloadOps env folder keys ++
                [.mkZip, .readStageDir, .rmStage, .rmZip],
              downloadStaged env folder keys,
              some ((downloadStaged env folder keys).map Prod.snd)⟩) ∨
        (env.zipOk = false ∧
          getDownloadCompleteFolderSvc env folderQ =
            ⟨[.status 500],
              stagePre ++ downloadOps env folder keys ++ [.mkZip, .readStageDir],
              downloadStaged env folder keys, none⟩)) := by
  unfold getDownloadCompleteFolderSvc
  cases folderQ with
  | none => exact Or.inl rfl
  | some folder =>
    by_cases hf : folder = ""
    · exact Or.inl (by simp [hf])
    · rcases hL : env.listing with e | c
      · exact Or.inr (Or.inl (by simp [hf, hL]))
      · rcases c with _ | keys
        · exact Or.inr (Or.inr (Or.inl (by simp [hf, hL])))
        · by_cases hk : keys = []
          · exact Or.inr (Or.inr (Or.inl (by simp [hf, hL, hk])))
          · refine Or.inr (Or.inr (Or.inr ⟨folder, keys, rfl, hf, rfl, hk, ?_⟩))
            cases hz : env.zipOk
            · exact Or.inr ⟨rfl, by simp [hf, hL, hk, hz]⟩
            · exact Or.inl ⟨rfl, by simp [hf, hL, hk, hz]⟩

/-- The concurrent handler's post-zip event list always has exactly one
element. -/
theorem nestedSendResponses_length (env : Env) :
    (nestedSendResponses env).length = 1 := by
  unfold nestedSendResponses
  cases ha : env.aborted <;> cases hs : env.sendOk <;>
    cases hh : env.headersSentAtErr <;> simp

/-! ## Claim theorems -/

/-- C1 (code evaluated at the failing input): with a file attached and the
object-store put failing, `uploadFileOnAwsS3` still responds 200 with the
success message and constructed file URL — the `s3Client.send` promise is
not awaited, so the put's outcome cannot decide the HTTP status and the
500 branch is unreachable for an asynchronous put failure.  This
contradicts the claim that the PutObjectCommand's outcome decides the
status. -/
theorem uploadRespondsSuccessDespitePutFailure :
    uploadFileOnAwsS3 "bucket" "us-east-1" (.error ())
        ⟨some ⟨"a.txt", "text/plain"⟩, none⟩ =
      .sentJson 200 "File uploaded successfully!"
        "https://bucket.s3.us-east-1.amazonaws.com/default-folder/a.txt" := rfl

/-- C4: for a request whose folder query parameter is absent or empty,
both archive-pipeline variants respond 400 and emit no filesystem
operation at all (no staging directory or archive path is created). -/
theorem emptyFolderRejectedNoFsOps (env : Env) (folderQ : Option String)
    (h : folderQ = none ∨ folderQ = some "") :
    getDownloadNestedCompleteFolderSvc env folderQ =
        ⟨[.status 400], [], [], none⟩ ∧
    getDownloadCompleteFolderSvc env folderQ =
        ⟨[.status 400], [], [], none⟩ := by
  rcases h with h | h <;> subst h <;>
    exact ⟨by simp [getDownloadNestedCompleteFolderSvc],
      by simp [getDownloadCompleteFolderSvc]⟩

/-- C4 witness: concrete evaluation at an absent folder parameter. -/
theorem emptyFolderRejectedNoFsOps_witness :
    getDownloadNestedCompleteFolderSvc envC4 none =
        ⟨[.status 400], [], [], none⟩ ∧
    getDownloadCompleteFolderSvc envC4 none =
        ⟨[.status 400], [], [], none⟩ :=
  emptyFolderRejectedNoFsOps envC4 none (Or.inl rfl)

/-- C5: for every key the listing returned under the requested folder
(the folder is a front segment of the key), any file the concurrent
pipeline stages for that key lies at the key with the requested folder
removed from the front and a single leading '/' removed — and the archive
entries are exactly the staged relative paths, so nesting under the
folder is reproduced in the archive. -/
theorem stagedPathsReproduceNestedStructure (env : Env) (folder : String)
    (keys : List String) (hL : env.listing = .ok (some keys))
    (hunder : ∀ k ∈ keys, folder.data.isPrefixOf k.data = true) :
    (∀ p ∈ (getDownloadNestedCompleteFolderSvc env (some folder)).staged,
        p.2 = specRelPath folder p.1) ∧
    (∀ es,
        (getDownloadNestedCompleteFolderSvc env (some folder)).archiveEntries =
          some es →
        es = (getDownloadNestedCompleteFolderSvc env (some folder)).staged.map
          Prod.snd) := by
  rcases nested_shape env (some folder) with h | h | h |
    ⟨folder', keys', hq, hf, hL', hk, hcase⟩
  · rw [h]
    exact ⟨by simp, by simp⟩
  · rw [h]
    exact ⟨by simp, by simp⟩
  · rw [h]
    exact ⟨by simp, by simp⟩
  · injection hq with hq2
    subst hq2
    rw [hL] at hL'
    injection hL' with h3
    injection h3 with h4
    subst h4
    have hstaged : ∀ p ∈ downloadStaged env folder keys,
        p.2 = specRelPath folder p.1 := by
      rintro ⟨k, r⟩ hp
      have := (mem_downloadStaged env folder k r keys).mp hp
      obtain ⟨hkmem, _, _, hr⟩ := this
      rw [hr]
      exact relPathOfKey_eq_specRelPath folder k (hunder k hkmem)
    rcases hcase with ⟨_, h⟩ | ⟨_, h⟩ <;> rw [h]
    · exact ⟨hstaged, fun es hes => by injection hes with h4; exact h4.symm⟩
    · exact ⟨hstaged, by simp⟩

/-- C5 witness: for the nested key `folderX/nested/b.txt` under prefix
`folderX`, the handler's staged relative path equals the spec-side
strip-front computation (`nested/b.txt`). -/
theorem stagedPathsReproduceNestedStructure_witness :
    relPathOfKey "folderX" "folderX/nested/b.txt" =
      specRelPath "folderX" "folderX/nested/b.txt" :=
  (stagedPathsReproduceNestedStructure envC5 "folderX"
      ["folderX/a.txt", "folderX/nested/b.txt"] rfl (by decide)).1
    ("folderX/nested/b.txt", relPathOfKey "folderX" "folderX/nested/b.txt")
    (by decide)

/-- C6: a listed key ending in '/' (a folder placeholder) is never staged
as a file by either download variant, and in both variants the produced
archive's entries are exactly the staged relative paths — so a
placeholder contributes no archive entry. -/
theorem placeholderKeysNeverStagedOrArchived (env : Env)
    (folderQ : Option String) (k r : String)
    (hk : isPlaceholderKey k = true) :
    ((k, r) ∉ (getDownloadNestedCompleteFolderSvc env folderQ).staged ∧
      ∀ es,
        (getDownloadNestedCompleteFolderSvc env folderQ).archiveEntries =
          some es →
        es = (getDownloadNestedCompleteFolderSvc env folderQ).staged.map
          Prod.snd) ∧
    ((k, r) ∉ (getDownloadCompleteFolderSvc env folderQ).staged ∧
      ∀ es,
        (getDownloadCompleteFolderSvc env folderQ).archiveEntries = some es →
        es = (getDownloadCompleteFolderSvc env folderQ).staged.map Prod.snd) := by
  have hnot : ∀ folder keys, (k, r) ∉ downloadStaged env folder keys := by
    intro folder keys hmem
    have := (mem_downloadStaged env folder k r keys).mp hmem
    rw [hk] at this
    exact absurd this.2.1 (by simp)
  constructor
  · rcases nested_shape env folderQ with h | h | h |
      ⟨folder, keys, _, _, _, _, hcase⟩
    · rw [h]; exact ⟨by simp, by simp⟩
    · rw [h]; exact ⟨by simp, by simp⟩
    · rw [h]; exact ⟨by simp, by simp⟩
    · rcases hcase with ⟨_, h⟩ | ⟨_, h⟩ <;> rw [h]
      · exact ⟨hnot folder keys,
          fun es hes => by injection hes with h4; exact h4.symm⟩
      · exact ⟨hnot folder keys, by simp⟩
  · rcases seq_shape env folderQ with h | h | h |
      ⟨folder, keys, _, _, _, _, hcase⟩
    · rw [h]; exact ⟨by simp, by simp⟩
    · rw [h]; exact ⟨by simp, by simp⟩
    · rw [h]; exact ⟨by simp, by simp⟩
    · rcases hcase with ⟨_, h⟩ | ⟨_, h⟩ <;> rw [h]
      · exact ⟨hnot folder keys,
          fun es hes => by injection hes with h4; exact h4.symm⟩
      · exact ⟨hnot folder keys, by simp⟩

/-- C6 witness: the placeholder key `f/d/` is staged by neither variant in
a concrete run that stages `f/a.txt`. -/
theorem placeholderKeysNeverStagedOrArchived_witness :
    ("f/d/", "d") ∉ (getDownloadNestedCompleteFolderSvc envC6 (some "f")).staged ∧
    ("f/d/", "d") ∉ (getDownloadCompleteFolderSvc envC6 (some "f")).staged :=
  ⟨(placeholderKeysNeverStagedOrArchived envC6 (some "f") "f/d/" "d"
      (by decide)).1.1,
   (placeholderKeysNeverStagedOrArchived envC6 (some "f") "f/d/" "d"
      (by decide)).2.1⟩

/-- C2 counterexample: when the listing call throws, the concurrent
handler's outer catch responds 500 with NO cleanup — the staging
directory created before the listing call still exists when the request
ends, contradicting the claim that the 500 error paths also perform the
removal. -/
theorem errorPathLeavesStagingDir_cx :
    (getDownloadNestedCompleteFolderSvc envC2err (some "f")).responses =
      [RespEvent.status 500] ∧
    stageExistsAfter
      (getDownloadNestedCompleteFolderSvc envC2err (some "f")).fsOps = true :=
  ⟨rfl, rfl⟩

/-- C2 amended: on every exit path of either download variant that does
not attempt a 500 response (success, 404, client abort, and the
post-headers send failure), the staging directory and the archive file
have been removed by the end of the request; the 500 paths reached from
the outer catch and from the zip-stream error do not perform the
removal. -/
theorem cleanupHoldsOffErrorPaths (env : Env) (folderQ : Option String) :
    (RespEvent.status 500 ∉
        (getDownloadNestedCompleteFolderSvc env folderQ).responses →
      stageExistsAfter (getDownloadNestedCompleteFolderSvc env folderQ).fsOps =
        false ∧
      zipExistsAfter (getDownloadNestedCompleteFolderSvc env folderQ).fsOps =
        false) ∧
    (RespEvent.status 500 ∉
        (getDownloadCompleteFolderSvc env folderQ).responses →
      stageExistsAfter (getDownloadCompleteFolderSvc env folderQ).fsOps =
        false ∧
      zipExistsAfter (getDownloadCompleteFolderSvc env folderQ).fsOps =
        false) := by
  constructor
  · intro h500
    rcases nested_shape env folderQ with h | h | h |
      ⟨folder, keys, _, _, _, _, ⟨_, h⟩ | ⟨_, h⟩⟩
    · rw [h]; exact ⟨rfl, rfl⟩
    · rw [h] at h500; simp at h500
    · rw [h]; exact ⟨rfl, rfl⟩
    · rw [h]
      exact ⟨stageExistsAfter_cleanupNested stagePre (downloadOps env folder keys),
        zipExistsAfter_cleanupNested stagePre (downloadOps env folder keys)⟩
    · rw [h] at h500; simp at h500
  · intro h500
    rcases seq_shape env folderQ with h | h | h |
      ⟨folder, keys, _, _, _, _, ⟨_, h⟩ | ⟨_, h⟩⟩
    · rw [h]; exact ⟨rfl, rfl⟩
    · rw [h] at h500; simp at h500
    · rw [h]; exact ⟨rfl, rfl⟩
    · rw [h]
      exact ⟨stageExistsAfter_cleanupSeq stagePre (downloadOps env folder keys),
        zipExistsAfter_cleanupSeq stagePre (downloadOps env folder keys)⟩
    · rw [h] at h500; simp at h500

/-- C2 witness: on a fully successful run the staging directory and the
archive file are gone at the end of the request. -/
theorem cleanupHoldsOffErrorPaths_witness :
    stageExistsAfter
        (getDownloadNestedCompleteFolderSvc envC2ok (some "f")).fsOps = false ∧
    zipExistsAfter
        (getDownloadNestedCompleteFolderSvc envC2ok (some "f")).fsOps = false :=
  (cleanupHoldsOffErrorPaths envC2ok (some "f")).1 (by decide)

/-- C7: when exactly one key's object-store fetch fails (the failure is
caught per entry), both download variants still stage every other
non-placeholder key, still build the archive over exactly the staged
files, and respond with the archive stream and no error status — the
per-object failure is never surfaced in the HTTP response. -/
theorem singleFetchFailureTolerated (env : Env) (folder k0 : String)
    (keys : List String) (hf : ¬folder = "")
    (hL : env.listing = .ok (some keys)) (hk : ¬keys = [])
    (hz : env.zipOk = true) (hs : env.sendOk = true) (ha : env.aborted = false)
    (hfail : env.fetchOk k0 = false)
    (hrest : ∀ k ∈ keys, k ≠ k0 → env.fetchOk k = true) :
    (getDownloadNestedCompleteFolderSvc env (some folder)).responses =
      [.streamStart] ∧
    (getDownloadNestedCompleteFolderSvc env (some folder)).archiveEntries =
      some ((getDownloadNestedCompleteFolderSvc env (some folder)).staged.map
        Prod.snd) ∧
    (getDownloadCompleteFolderSvc env (some folder)).responses =
      [.streamStart] ∧
    (getDownloadCompleteFolderSvc env (some folder)).archiveEntries =
      some ((getDownloadCompleteFolderSvc env (some folder)).staged.map
        Prod.snd) ∧
    (getDownloadCompleteFolderSvc env (some folder)).staged =
      (getDownloadNestedCompleteFolderSvc env (some folder)).staged ∧
    (∀ r, (k0, r) ∉ (getDownloadNestedCompleteFolderSvc env (some folder)).staged) ∧
    (∀ k ∈ keys, isPlaceholderKey k = false → k ≠ k0 →
      (k, relPathOfKey folder k) ∈
        (getDownloadNestedCompleteFolderSvc env (some folder)).staged) := by
  have hred : getDownloadNestedCompleteFolderSvc env (some folder) =
      ⟨nestedSendResponses env,
        stagePre ++ downloadOps env folder keys ++ [.mkZip, .rmStage, .rmZip],
        downloadStaged env folder keys,
        some ((downloadStaged env folder keys).map Prod.snd)⟩ := by
    simp [getDownloadNestedCompleteFolderSvc, hf, hL, hk, hz]
  have hredSeq : getDownloadCompleteFolderSvc env (some folder) =
      ⟨seqSendResponses env,
        stagePre ++ downloadOps env folder keys ++
          [.mkZip, .readStageDir, .rmStage, .rmZip],
        downloadStaged env folder keys,
        some ((downloadStaged env folder keys).map Prod.snd)⟩ := by
    simp [getDownloadCompleteFolderSvc, hf, hL, hk, hz]
  have hresp : nestedSendResponses env = [.streamStart] := by
    simp [nestedSendResponses, ha, hs]
  have hrespSeq : seqSendResponses env = [.streamStart] := by
    simp [seqSendResponses, hs]
  rw [hred, hredSeq]
  refine ⟨hresp, rfl, hrespSeq, rfl, rfl, ?_, ?_⟩
  · intro r hmem
    have hc := (mem_downloadStaged env folder k0 r keys).mp hmem
    rw [hfail] at hc
    exact absurd hc.2.2.1 (by simp)
  · intro k hkmem hkp hkne
    exact (mem_downloadStaged env folder k (relPathOfKey folder k) keys).mpr
      ⟨hkmem, hkp, hrest k hkmem hkne, rfl⟩

/-- C7 witness: with keys `f/a.txt`, `f/bad`, `f/d/` and only the fetch of
`f/bad` failing, the stream is still the sole response, `f/bad` is not
staged, and `f/a.txt` is staged at its relative path. -/
theorem singleFetchFailureTolerated_witness :
    (getDownloadNestedCompleteFolderSvc envC7 (some "f")).responses =
      [RespEvent.streamStart] ∧
    ("f/bad", relPathOfKey "f" "f/bad") ∉
      (getDownloadNestedCompleteFolderSvc envC7 (some "f")).staged ∧
    ("f/a.txt", relPathOfKey "f" "f/a.txt") ∈
      (getDownloadNestedCompleteFolderSvc envC7 (some "f")).staged := by
  have h := singleFetchFailureTolerated envC7 "f" "f/bad"
    ["f/a.txt", "f/bad", "f/d/"] (by decide) rfl (by decide) rfl rfl rfl
    (by decide) (by decide)
  exact ⟨h.1, h.2.2.2.2.2.1 _, h.2.2.2.2.2.2 "f/a.txt" (by decide) (by decide)
    (by decide)⟩

/-- C8 counterexample: in the sequential variant, when `res.sendFile`
fails after response headers were sent, the error callback attempts a
second response (`res.status(500).send`) with no `headersSent` guard —
two response attempts for one request, contradicting the claim for "both
download variants". -/
theorem seqSecondResponseAfterHeaders_cx :
    (getDownloadCompleteFolderSvc envC8cx (some "f")).responses =
      [RespEvent.streamStart, RespEvent.status 500] ∧
    (getDownloadCompleteFolderSvc envC8cx (some "f")).responses.length ≠ 1 :=
  ⟨rfl, by decide⟩

/-- C8 amended: the concurrent variant attempts exactly one HTTP response
on every path (its post-headers errors are only logged, thanks to the
`headersSent` guard); the sequential variant attempts exactly one
response except when the send fails after headers have been sent, where
it attempts a second status/body. -/
theorem singleResponseAmended (env : Env) (folderQ : Option String) :
    (getDownloadNestedCompleteFolderSvc env folderQ).responses.length = 1 ∧
    (env.sendOk = true ∨ env.headersSentAtErr = false →
      (getDownloadCompleteFolderSvc env folderQ).responses.length = 1) := by
  constructor
  · rcases nested_shape env folderQ with h | h | h |
      ⟨folder, keys, _, _, _, _, ⟨_, h⟩ | ⟨_, h⟩⟩
    · rw [h]; rfl
    · rw [h]; rfl
    · rw [h]; rfl
    · rw [h]
      exact nestedSendResponses_length env
    · rw [h]; rfl
  · intro hcond
    rcases seq_shape env folderQ with h | h | h |
      ⟨folder, keys, _, _, _, _, ⟨_, h⟩ | ⟨_, h⟩⟩
    · rw [h]; rfl
    · rw [h]; rfl
    · rw [h]; rfl
    · rw [h]
      rcases hcond with hc | hc
      · simp [seqSendResponses, hc]
      · cases hs : env.sendOk <;> simp [seqSendResponses, hs, hc]
    · rw [h]; rfl

/-- C8 witness: on a successful send both variants attempt exactly one
response. -/
theorem singleResponseAmended_witness :
    (getDownloadNestedCompleteFolderSvc envC8ok (some "f")).responses.length =
      1 ∧
    (getDownloadCompleteFolderSvc envC8ok (some "f")).responses.length = 1 :=
  ⟨(singleResponseAmended envC8ok (some "f")).1,
   (singleResponseAmended envC8ok (some "f")).2 (Or.inl rfl)⟩

/-- C10: for a non-empty folder, both archive-pipeline variants respond
404 exactly when the listing comes back with no entries (`Contents`
undefined or the empty list); a non-empty listing consisting solely of
placeholder keys does not produce a 404 — on a successful run the
pipeline stages nothing and streams an archive with no entries. -/
theorem notFoundIffEmptyListing (env : Env) (folder : String)
    (hf : ¬folder = "") :
    ((RespEvent.status 404 ∈
        (getDownloadNestedCompleteFolderSvc env (some folder)).responses) ↔
      (env.listing = .ok none ∨ env.listing = .ok (some []))) ∧
    ((RespEvent.status 404 ∈
        (getDownloadCompleteFolderSvc env (some folder)).responses) ↔
      (env.listing = .ok none ∨ env.listing = .ok (some []))) ∧
    (∀ keys, env.listing = .ok (some keys) → ¬keys = [] →
      (∀ k ∈ keys, isPlaceholderKey k = true) →
      env.zipOk = true → env.sendOk = true → env.aborted = false →
      ((getDownloadNestedCompleteFolderSvc env (some folder)).responses =
          [.streamStart] ∧
        (getDownloadNestedCompleteFolderSvc env (some folder)).staged = [] ∧
        (getDownloadNestedCompleteFolderSvc env (some folder)).archiveEntries =
          some []) ∧
      ((getDownloadCompleteFolderSvc env (some folder)).responses =
          [.streamStart] ∧
        (getDownloadCompleteFolderSvc env (some folder)).staged = [] ∧
        (getDownloadCompleteFolderSvc env (some folder)).archiveEntries =
          some [])) := by
  refine ⟨?_, ?_, ?_⟩
  · rcases hL : env.listing with e | c
    · simp [getDownloadNestedCompleteFolderSvc, hf, hL]
    · rcases c with _ | keys
      · simp [getDownloadNestedCompleteFolderSvc, hf, hL]
      · by_cases hk : keys = []
        · subst hk
          simp [getDownloadNestedCompleteFolderSvc, hf, hL]
        · cases hz : env.zipOk <;>
            simp [getDownloadNestedCompleteFolderSvc, hf, hL, hk, hz,
              status404_notMem_nestedSendResponses]
  · rcases hL : env.listing with e | c
    · simp [getDownloadCompleteFolderSvc, hf, hL]
    · rcases c with _ | keys
      · simp [getDownloadCompleteFolderSvc, hf, hL]
      · by_cases hk : keys = []
        · subst hk
          simp [getDownloadCompleteFolderSvc, hf, hL]
        · cases hz : env.zipOk <;>
            simp [getDownloadCompleteFolderSvc, hf, hL, hk, hz,
              status404_notMem_seqSendResponses]
  · intro keys hL hk hplace hz hs ha
    have hempty : downloadStaged env folder keys = [] := by
      rw [downloadStaged, List.filterMap_eq_nil_iff]
      intro a hamem
      simp [hplace a hamem]
    refine ⟨⟨?_, ?_, ?_⟩, ⟨?_, ?_, ?_⟩⟩ <;>
      simp [getDownloadNestedCompleteFolderSvc, getDownloadCompleteFolderSvc,
        hf, hL, hk, hz, hempty, nestedSendResponses, seqSendResponses, ha, hs]

/-- C10 witness: a listing containing only the placeholder keys `f/` and
`f/sub/` does not 404 and yields an archive with no entries. -/
theorem notFoundIffEmptyListing_witness :
    ((RespEvent.status 404 ∈
        (getDownloadNestedCompleteFolderSvc envC10 (some "f")).responses) ↔
      (envC10.listing = .ok none ∨ envC10.listing = .ok (some []))) ∧
    (getDownloadNestedCompleteFolderSvc envC10 (some "f")).archiveEntries =
      some [] := by
  have h := notFoundIffEmptyListing envC10 "f" (by decide)
  exact ⟨h.1, ((h.2.2 ["f/", "f/sub/"] rfl (by decide) (by decide) rfl rfl
    rfl).1).2.2⟩

/-- C3 counterexample: a request to `getPresignedFolderUrls` (route
`generateDownloadUrls`) with NO Authorization header is not rejected with
401 — the handler performs the listing call and answers 200, because this
endpoint has no authentication check at all.  This refutes the claim for
"either presigned-URL endpoint". -/
theorem noTokenStillListed_cx :
    (getPresignedFolderUrls linkEnvC3 none (some "f")).listingCalled = true ∧
    (getPresignedFolderUrls linkEnvC3 none (some "f")).status ≠ 401 :=
  ⟨rfl, by decide⟩

/-- C3 amended: only `getPresignedFolderUrlsUsignJwtToken` (route
`generateJwtTokenDownloadUrl`) enforces the bearer token: whenever the
Authorization header is missing, does not start with `Bearer `, or
carries a token that fails verification, it responds 401 and issues no
listing call; `getPresignedFolderUrls` performs no authentication. -/
theorem jwtRejectsBeforeListing (env : LinkEnv) (authHeader folderQ : Option String)
    (hbad : ∀ h, authHeader = some h →
      ("Bearer ".data.isPrefixOf h.data) = true →
      env.verifyOk (bearerTokenOf h) = false) :
    (getPresignedFolderUrlsUsignJwtToken env authHeader folderQ).status = 401 ∧
    (getPresignedFolderUrlsUsignJwtToken env authHeader folderQ).listingCalled =
      false := by
  cases authHeader with
  | none => exact ⟨rfl, rfl⟩
  | some h =>
    unfold getPresignedFolderUrlsUsignJwtToken
    cases hb : "Bearer ".data.isPrefixOf h.data
    · simp [hb]
    · simp [hb, hbad h rfl hb]

/-- C3 witness: a syntactically well-formed bearer header whose token
fails verification is rejected with 401 before any listing. -/
theorem jwtRejectsBeforeListing_witness :
    (getPresignedFolderUrlsUsignJwtToken linkEnvC3 (some "Bearer tok")
        (some "f")).status = 401 ∧
    (getPresignedFolderUrlsUsignJwtToken linkEnvC3 (some "Bearer tok")
        (some "f")).listingCalled = false :=
  jwtRejectsBeforeListing linkEnvC3 (some "Bearer tok") (some "f")
    (fun h hh _ => by cases hh; rfl)

/-- C9 counterexample: the response body of `getPresignedFolderUrls` on a
successful listing is not a JSON array — it is the object
`{ files: [...] }` wrapping the array. -/
theorem presignedBodyNotArray_cx :
    ¬ ∃ xs, (getPresignedFolderUrls linkEnvC9 none (some "f")).body =
      Json.arr xs := by
  rintro ⟨xs, hx⟩
  exact Json.noConfusion hx

/-- C9 amended: on a successful listing for a non-empty folder whose keys
all lie under `folder ++ "/"`, the response is 200 and the body is the
JSON object with single field `files` holding an array with exactly one
element per non-placeholder listed key, each element a record with
`filename` the key with the folder plus '/' removed from the front,
`signedUrl` the presigned URL with 60-second expiry, and `contentType`
the object's reported content type. -/
theorem presignedUrlsBodyShape (env : LinkEnv) (authHeader : Option String)
    (folder : String) (keys : List String) (hf : ¬folder = "")
    (hL : env.listing = .ok (some keys))
    (hunder : ∀ k ∈ keys, ((folder ++ "/").data).isPrefixOf k.data = true) :
    (getPresignedFolderUrls env authHeader (some folder)).status = 200 ∧
    (getPresignedFolderUrls env authHeader (some folder)).listingCalled =
      true ∧
    (getPresignedFolderUrls env authHeader (some folder)).body =
      Json.obj [("files", Json.arr
        ((keys.filter (fun k => !isPlaceholderKey k)).map (fun k =>
          Json.obj [("filename", Json.str (specFilename folder k)),
            ("signedUrl", Json.str (env.sign k 60)),
            ("contentType", Json.str (env.contentTypeOf k))])))] := by
  have hred : getPresignedFolderUrls env authHeader (some folder) =
      ⟨200, Json.obj [("files", Json.arr
          ((keys.filter (fun k => !isPlaceholderKey k)).map
            (presignedEntryFull env folder)))], true⟩ := by
    simp [getPresignedFolderUrls, hf, hL]
  rw [hred]
  refine ⟨rfl, rfl, ?_⟩
  have hmap : (keys.filter (fun k => !isPlaceholderKey k)).map
      (presignedEntryFull env folder) =
      (keys.filter (fun k => !isPlaceholderKey k)).map (fun k =>
        Json.obj [("filename", Json.str (specFilename folder k)),
          ("signedUrl", Json.str (env.sign k 60)),
          ("contentType", Json.str (env.contentTypeOf k))]) := by
    refine List.map_congr_left ?_
    intro k hkmem
    have hkkeys : k ∈ keys := List.mem_of_mem_filter hkmem
    have hpre := hunder k hkkeys
    unfold presignedEntryFull
    rw [jsReplaceFirst_eq_specFilename folder k hpre]
  rw [hmap]

/-- C9 witness: concrete evaluation over a listing with a nested key and a
placeholder key. -/
theorem presignedUrlsBodyShape_witness :
    (getPresignedFolderUrls linkEnvC9 none (some "f")).status = 200 ∧
    (getPresignedFolderUrls linkEnvC9 none (some "f")).listingCalled = true ∧
    (getPresignedFolderUrls linkEnvC9 none (some "f")).body =
      Json.obj [("files", Json.arr
        (((["f/a.txt", "f/nested/b.txt", "f/"] : List String).filter
            (fun k => !isPlaceholderKey k)).map (fun k =>
          Json.obj [("filename", Json.str (specFilename "f" k)),
            ("signedUrl", Json.str (linkEnvC9.sign k 60)),
            ("contentType", Json.str (linkEnvC9.contentTypeOf k))])))] :=
  presignedUrlsBodyShape linkEnvC9 none "f" ["f/a.txt", "f/nested/b.txt", "f/"]
    (by decide) rfl (by decide)

end NodeS3Backend
